import Mathlib

/-!
Verification of the Financial Analytics & Scoring Engine.

Shallow embedding of the repository's scoring code:
* `app/models/__init__.py` — `FinancialSnapshot` and its derived ratios,
  `ManagementScore`, `EarningsQualityScore`, `ROICWACCAnalysis`,
  `TrendMetric`, `PeerComparison`, `EarlyWarningSignal`.
* `app/core/utils.py` — `calculate_z_score`, `safe_divide`.
* `app/services/ews_service.py` — `EarlyWarningService._determine_warning_level`.
* `app/services/factor_service.py` — factor z-scores and `calculate_exposures`.
* `app/services/roic_wacc_service.py` — `ROICWACCService.analyze`.
* `app/services/peer_service.py` — `PeerService._compare_metric`.

Python floats are idealized as exact rationals (`ℚ`); the factor pipeline,
which takes square roots and logarithms, lives in `ℝ`.  Python `None` becomes
`Option`.  Leading underscores of private Python methods are dropped.
-/

namespace FinAgent

/-- `app/models/__init__.py` `FinancialSnapshot`: identity plus raw statement
fields; optional fields are `Option` (Python `None`). -/
structure FinancialSnapshot where
  stock_code : String
  company_name : String
  report_year : ℤ
  report_season : ℤ
  report_period : String
  currency : String := "TWD"
  unit : String := "thousand"
  cash_and_equivalents : ℚ
  accounts_receivable : ℚ
  inventory : ℚ
  total_assets : ℚ
  total_liabilities : ℚ
  equity : ℚ
  net_revenue : ℚ
  gross_profit : ℚ
  operating_income : ℚ
  net_income : ℚ
  eps : ℚ
  current_assets : Option ℚ := none
  current_liabilities : Option ℚ := none
  short_term_debt : Option ℚ := none
  long_term_debt : Option ℚ := none
  retained_earnings : Option ℚ := none
  operating_cash_flow : Option ℚ := none
  investing_cash_flow : Option ℚ := none
  financing_cash_flow : Option ℚ := none
deriving Repr

namespace FinancialSnapshot

/-- `FinancialSnapshot.gross_margin` computed field. -/
def gross_margin (s : FinancialSnapshot) : ℚ :=
  if s.net_revenue = 0 then 0 else s.gross_profit / s.net_revenue * 100

/-- `FinancialSnapshot.operating_margin` computed field. -/
def operating_margin (s : FinancialSnapshot) : ℚ :=
  if s.net_revenue = 0 then 0 else s.operating_income / s.net_revenue * 100

/-- `FinancialSnapshot.net_margin` computed field. -/
def net_margin (s : FinancialSnapshot) : ℚ :=
  if s.net_revenue = 0 then 0 else s.net_income / s.net_revenue * 100

/-- `FinancialSnapshot.debt_ratio` computed field. -/
def debt_ratio (s : FinancialSnapshot) : ℚ :=
  if s.total_assets = 0 then 0 else s.total_liabilities / s.total_assets * 100

/-- `FinancialSnapshot.equity_ratio` computed field. -/
def equity_ratio (s : FinancialSnapshot) : ℚ :=
  if s.total_assets = 0 then 0 else s.equity / s.total_assets * 100

/-- `FinancialSnapshot.current_ratio` computed field.  The Python guard is
`if self.current_assets and self.current_liabilities and
self.current_liabilities != 0:` — `and` tests *truthiness*, so a present
value of `0.0` fails the guard exactly like `None` does. -/
def current_ratio (s : FinancialSnapshot) : Option ℚ :=
  match s.current_assets, s.current_liabilities with
  | some ca, some cl => if ca ≠ 0 ∧ cl ≠ 0 then some (ca / cl) else none
  | _, _ => none

/-- `FinancialSnapshot.roa` computed field (quarterly, annualized ×4). -/
def roa (s : FinancialSnapshot) : ℚ :=
  if s.total_assets = 0 then 0 else s.net_income / s.total_assets * 100 * 4

/-- `FinancialSnapshot.roe` computed field (quarterly, annualized ×4). -/
def roe (s : FinancialSnapshot) : ℚ :=
  if s.equity = 0 then 0 else s.net_income / s.equity * 100 * 4

end FinancialSnapshot

/-- `ManagementScore`: four component sub-scores (pydantic validates each to
`[0,100]`; here the bounds appear as hypotheses of the theorems).  The
free-text `commentary`/`details` presentation fields carry no scoring logic
and are omitted. -/
structure ManagementScore where
  tenure_stability : ℚ
  board_independence : ℚ
  insider_alignment : ℚ
  governance_red_flags : ℚ
deriving Repr

/-- `ManagementScore.total` computed field (weighted average, weights
hard-coded `0.25`); derived on read, never stored. -/
def ManagementScore.total (m : ManagementScore) : ℚ :=
  0.25 * m.tenure_stability + 0.25 * m.board_independence +
    0.25 * m.insider_alignment + 0.25 * m.governance_red_flags

/-- `EarningsQualityScore`: four component sub-scores in `[0,100]`. -/
structure EarningsQualityScore where
  accrual_quality : ℚ
  working_capital_behavior : ℚ
  one_off_dependency : ℚ
  earnings_stability : ℚ
deriving Repr

/-- `EarningsQualityScore.total` computed field (weights hard-coded `0.25`). -/
def EarningsQualityScore.total (e : EarningsQualityScore) : ℚ :=
  0.25 * e.accrual_quality + 0.25 * e.working_capital_behavior +
    0.25 * e.one_off_dependency + 0.25 * e.earnings_stability

/-- `EarlyWarningSignal`: an immutable finding with an ordinal severity
string (`"low" | "medium" | "high" | "critical"`). -/
structure EarlyWarningSignal where
  signal_name : String
  severity : String
  current_value : ℚ
  threshold_value : ℚ
  description : String
deriving Repr

/-- `EarlyWarningService._determine_warning_level`
(`app/services/ews_service.py` lines 218–239), branch for branch, including
the redundant `high_count >= 2` branch and the `else: return "low"`
fall-through. -/
def determine_warning_level (signals : List EarlyWarningSignal) : String :=
  if signals.isEmpty then "none"
  else
    let critical_count := signals.countP (fun s => s.severity == "critical")
    let high_count := signals.countP (fun s => s.severity == "high")
    let medium_count := signals.countP (fun s => s.severity == "medium")
    if critical_count > 0 then "critical"
    else if high_count ≥ 2 then "high"
    else if high_count ≥ 1 then "high"
    else if medium_count ≥ 3 then "medium"
    else if medium_count ≥ 1 then "low"
    else "low"

/-- `TrendMetric`: parallel period/value sequences. -/
structure TrendMetric where
  metric_name : String
  periods : List String
  values : List ℚ
deriving Repr

/-- `TrendMetric.trend_direction` computed field: classify from the last
`min(3, n)` values (`self.values[-3:]`), strictly increasing ⇒ improving,
strictly decreasing ⇒ declining, otherwise stable. -/
def TrendMetric.trend_direction (t : TrendMetric) : String :=
  if t.values.length < 2 then "insufficient_data"
  else
    let recent := if 3 ≤ t.values.length
      then t.values.drop (t.values.length - 3) else t.values
    if List.Chain' (· < ·) recent then "improving"
    else if List.Chain' (· > ·) recent then "declining"
    else "stable"

/-- `TrendMetric.latest_value` computed field. -/
def TrendMetric.latest_value (t : TrendMetric) : Option ℚ :=
  t.values.getLast?

/-- `TrendMetric.yoy_change` computed field: needs ≥ 4 observations, compares
`values[-1]` against `values[-5]` (falling back to `values[-4]` when only 4
exist); returns `None` when the reference value is `0`. -/
def TrendMetric.yoy_change (t : TrendMetric) : Option ℚ :=
  if 4 ≤ t.values.length then
    let current := t.values.getD (t.values.length - 1) 0
    let year_ago := if 5 ≤ t.values.length
      then t.values.getD (t.values.length - 5) 0
      else t.values.getD (t.values.length - 4) 0
    if year_ago ≠ 0 then some ((current - year_ago) / year_ago * 100) else none
  else none

/-! ## `app/core/utils.py` and `statistics` helpers -/

/-- `app/core/utils.py` `safe_divide`: default result when the denominator is
zero (the call sites use the default `default = 0.0`). -/
def safe_divide (numerator denominator : ℚ) (default : ℚ := 0) : ℚ :=
  if denominator = 0 then default else numerator / denominator

/-- `app/core/utils.py` `calculate_z_score`: guards a zero standard
deviation by returning `0.0` directly. -/
noncomputable def calculate_z_score (value mean std_dev : ℝ) : ℝ :=
  if std_dev = 0 then 0 else (value - mean) / std_dev

/-- Python `statistics.mean` over exact rationals (call sites guarantee a
nonempty list; on `[]` Python raises, here the junk value is `0`). -/
def pyMean (xs : List ℚ) : ℚ := xs.sum / xs.length

/-- Sample variance with Bessel's correction (`n - 1`), the square of
Python's `statistics.stdev` (call sites guarantee length ≥ 2). -/
def sampleVar (xs : List ℚ) : ℚ :=
  ((xs.map fun x => (x - pyMean xs) ^ 2).sum) / (xs.length - 1 : ℤ)

/-- Python `statistics.stdev`: square root of the sample variance. -/
noncomputable def stdev (xs : List ℚ) : ℝ := Real.sqrt (sampleVar xs)

/-- Python's `round(x, 2)` idealized as rounding to the nearest hundredth
(Python uses round-half-to-even on floats at exact ties; no claim here
depends on tie behavior). -/
def round2q (x : ℚ) : ℚ := (round (x * 100) : ℤ) / 100

/-- `round(x, 2)` over the reals, for the factor pipeline. -/
noncomputable def round2r (x : ℝ) : ℝ := (round (x * 100) : ℤ) / 100

/-! ## `app/services/factor_service.py` -/

/-- `FactorExposures`: the five standardized z-scores
(`commentary`/`details` presentation fields carry no logic, omitted). -/
structure FactorExposures where
  quality : ℝ
  value : ℝ
  momentum : ℝ
  size : ℝ
  volatility : ℝ

/-- The quality composite `s.roe + s.operating_margin - (s.debt_ratio / 2)`
from `FactorService._calculate_quality_factor`. -/
def quality_score (s : FinancialSnapshot) : ℚ :=
  s.roe + s.operating_margin - s.debt_ratio / 2

/-- `FactorService._calculate_quality_factor`: z-score of the target's
quality composite against the peer composites; `statistics.stdev` is taken
only when there is more than one peer, otherwise `1.0` is substituted. -/
noncomputable def calculate_quality_factor
    (target : FinancialSnapshot) (peers : List FinancialSnapshot) : ℝ :=
  let target_score := quality_score target
  let peer_scores := peers.map quality_score
  let mean_score := pyMean peer_scores
  let std_score : ℝ := if peer_scores.length > 1 then stdev peer_scores else 1
  calculate_z_score target_score mean_score std_score

/-- `FactorService._calculate_value_factor`: peers with `eps ≤ 0` are
filtered out; an empty filtered list short-circuits to `0.0`; a singleton
filtered list substitutes stdev `1.0`. -/
noncomputable def calculate_value_factor
    (target : FinancialSnapshot) (peers : List FinancialSnapshot) : ℝ :=
  let target_eps := target.eps
  let peer_eps := (peers.map (·.eps)).filter (fun e => 0 < e)
  if peer_eps.isEmpty then 0
  else
    let mean_eps := pyMean peer_eps
    let std_eps : ℝ := if peer_eps.length > 1 then stdev peer_eps else 1
    calculate_z_score target_eps mean_eps std_eps

/-- `FactorService._calculate_momentum_factor`: net margin as proxy. -/
noncomputable def calculate_momentum_factor
    (target : FinancialSnapshot) (peers : List FinancialSnapshot) : ℝ :=
  let target_margin := target.net_margin
  let peer_margins := peers.map (·.net_margin)
  let mean_margin := pyMean peer_margins
  let std_margin : ℝ :=
    if peer_margins.length > 1 then stdev peer_margins else 1
  calculate_z_score target_margin mean_margin std_margin

/-- `math.log(total_assets) if total_assets > 0 else 0` from
`FactorService._calculate_size_factor`. -/
noncomputable def log_size (s : FinancialSnapshot) : ℝ :=
  if 0 < s.total_assets then Real.log s.total_assets else 0

/-- `FactorService._calculate_size_factor`: natural log of total assets.
The mean/stdev are taken over the real-valued logs. -/
noncomputable def calculate_size_factor
    (target : FinancialSnapshot) (peers : List FinancialSnapshot) : ℝ :=
  let target_size := log_size target
  let peer_sizes := peers.map log_size
  let mean_size := peer_sizes.sum / peer_sizes.length
  let std_size : ℝ :=
    if peer_sizes.length > 1 then
      Real.sqrt (((peer_sizes.map fun x =>
        (x - peer_sizes.sum / peer_sizes.length) ^ 2).sum) /
        (peer_sizes.length - 1 : ℤ))
    else 1
  calculate_z_score target_size mean_size std_size

/-- `FactorService._calculate_volatility_factor`: debt ratio as proxy. -/
noncomputable def calculate_volatility_factor
    (target : FinancialSnapshot) (peers : List FinancialSnapshot) : ℝ :=
  let target_debt := target.debt_ratio
  let peer_debts := peers.map (·.debt_ratio)
  let mean_debt := pyMean peer_debts
  let std_debt : ℝ := if peer_debts.length > 1 then stdev peer_debts else 1
  calculate_z_score target_debt mean_debt std_debt

/-- `FactorService.calculate_exposures` after snapshot loading: `target` is
the loaded target snapshot (`none` when absent) and `peers` the list of peer
snapshots that loaded successfully.  The `< 3` minimum is checked on this
loaded list, *before* any per-factor filtering. -/
noncomputable def calculate_exposures
    (target : Option FinancialSnapshot) (peers : List FinancialSnapshot) :
    Option FactorExposures :=
  match target with
  | none => none
  | some target =>
    if peers.length < 3 then none
    else some
      { quality := round2r (calculate_quality_factor target peers)
        value := round2r (calculate_value_factor target peers)
        momentum := round2r (calculate_momentum_factor target peers)
        size := round2r (calculate_size_factor target peers)
        volatility := round2r (calculate_volatility_factor target peers) }

/-! ## `app/services/roic_wacc_service.py` -/

/-- `ROICWACCAnalysis` stored fields (all rounded to two decimals by
`analyze`); `commentary`/`assumptions` presentation fields omitted. -/
structure ROICWACCAnalysis where
  nopat : ℚ
  invested_capital : ℚ
  roic : ℚ
  cost_of_equity : ℚ
  cost_of_debt : ℚ
  wacc : ℚ
deriving Repr

/-- `ROICWACCAnalysis.value_creation_gap` computed field: derived on read
from the stored `roic`/`wacc`, never independently settable. -/
def ROICWACCAnalysis.value_creation_gap (a : ROICWACCAnalysis) : ℚ :=
  a.roic - a.wacc

/-- `ROICWACCAnalysis.is_value_creating` computed field: strict `>`. -/
def ROICWACCAnalysis.is_value_creating (a : ROICWACCAnalysis) : Bool :=
  a.roic > a.wacc

/-- `Settings.default_risk_free_rate` (`app/core/config.py`). -/
def default_risk_free_rate : ℚ := 0.02

/-- `Settings.default_market_risk_premium`. -/
def default_market_risk_premium : ℚ := 0.06

/-- `Settings.default_beta`. -/
def default_beta : ℚ := 1

/-- `Settings.default_tax_rate`. -/
def default_tax_rate : ℚ := 0.2

/-- `ROICWACCService._calculate_nopat`. -/
def calculate_nopat (s : FinancialSnapshot) (tax_rate : ℚ) : ℚ :=
  s.operating_income * (1 - tax_rate)

/-- `ROICWACCService._calculate_invested_capital` (simplified:
equity + total liabilities). -/
def calculate_invested_capital (s : FinancialSnapshot) : ℚ :=
  s.equity + s.total_liabilities

/-- `ROICWACCService._calculate_cost_of_equity` (CAPM). -/
def calculate_cost_of_equity (beta : ℚ) : ℚ :=
  default_risk_free_rate + beta * default_market_risk_premium

/-- `ROICWACCService._estimate_cost_of_debt`: 3% base plus
debt-ratio × 5% spread. -/
def estimate_cost_of_debt (s : FinancialSnapshot) : ℚ :=
  let debt_ratio := s.debt_ratio / 100
  0.03 + debt_ratio * 0.05

/-- `ROICWACCService.analyze` after snapshot loading: `snapshot` is the
loaded snapshot (`none` when absent); `market_beta`, `cost_of_debt` and
`tax_rate` are the optional keyword arguments, defaulted from settings. -/
def analyze (snapshot : Option FinancialSnapshot)
    (market_beta cost_of_debt tax_rate : Option ℚ) :
    Option ROICWACCAnalysis :=
  match snapshot with
  | none => none
  | some s =>
    let beta := market_beta.getD default_beta
    let t := tax_rate.getD default_tax_rate
    let nopat := calculate_nopat s t
    let invested_capital := calculate_invested_capital s
    let roic := safe_divide nopat invested_capital * 100
    let coe := calculate_cost_of_equity beta
    let cod := cost_of_debt.getD (estimate_cost_of_debt s)
    let after_tax_cost_of_debt := cod * (1 - t)
    let total_capital := s.equity + s.total_liabilities
    let equity_weight := safe_divide s.equity total_capital
    let debt_weight := safe_divide s.total_liabilities total_capital
    let wacc := (equity_weight * coe + debt_weight * after_tax_cost_of_debt) * 100
    some
      { nopat := round2q nopat
        invested_capital := round2q invested_capital
        roic := round2q roic
        cost_of_equity := round2q (coe * 100)
        cost_of_debt := round2q (after_tax_cost_of_debt * 100)
        wacc := round2q wacc }

/-! ## `app/services/peer_service.py` -/

/-- `PeerComparison`: parallel companies/values/ranking sequences. -/
structure PeerComparison where
  metric_name : String
  companies : List String
  values : List ℚ
  ranking : List ℕ
deriving Repr

/-- `PeerComparison.best_performer` computed field: company at the *first*
index of the literal `max(values)` (`values.index(max(values))`); the
out-of-range default of `getD` is never hit when `companies` and `values`
are parallel, as `_compare_metric` guarantees. -/
def PeerComparison.best_performer (pc : PeerComparison) : String :=
  match pc.values.max? with
  | none => "N/A"
  | some m => pc.companies.getD (pc.values.indexOf m) ""

/-- `PeerComparison.worst_performer` computed field: first index of the
literal `min(values)`. -/
def PeerComparison.worst_performer (pc : PeerComparison) : String :=
  match pc.values.min? with
  | none => "N/A"
  | some m => pc.companies.getD (pc.values.indexOf m) ""

/-- Descending comparison on `(index, value)` pairs by value only: Python's
stable `sorted(enumerate(values), key=lambda x: x[1], reverse=True)` is a
stable merge sort under this relation. -/
def descLE (x y : ℕ × ℚ) : Bool := decide (y.2 ≤ x.2)

/-- Ascending comparison on `(index, value)` pairs by value only. -/
def ascLE (x y : ℕ × ℚ) : Bool := decide (x.2 ≤ y.2)

/-- The rank-assignment loop of `PeerService._compare_metric`:
`for rank, (idx, _) in enumerate(sorted_values, start=1): ranking[idx] = rank`. -/
def scatter_ranks : List (ℕ × ℚ) → ℕ → List ℕ → List ℕ
  | [], _, ranking => ranking
  | p :: rest, rank, ranking => scatter_ranks rest (rank + 1) (ranking.set p.1 rank)

/-- `PeerService._compare_metric`: extract values, stable-sort the
enumerated values (descending when `higher_is_better`), assign ranks `1..n`
back by original index. -/
def compare_metric (metric_name : String)
    (snapshots : List FinancialSnapshot)
    (extractor : FinancialSnapshot → ℚ) (higher_is_better : Bool) :
    PeerComparison :=
  let companies := snapshots.map (·.company_name)
  let values := snapshots.map extractor
  let sorted_values := if higher_is_better
    then values.enum.mergeSort descLE
    else values.enum.mergeSort ascLE
  let ranking := scatter_ranks sorted_values 1 (List.replicate values.length 0)
  { metric_name, companies, values, ranking }

/-- A neutral snapshot used as the base of concrete test inputs. -/
def baseSnap : FinancialSnapshot where
  stock_code := "0000"
  company_name := "BaseCo"
  report_year := 2023
  report_season := 1
  report_period := "2023Q1"
  cash_and_equivalents := 0
  accounts_receivable := 0
  inventory := 0
  total_assets := 1
  total_liabilities := 0
  equity := 1
  net_revenue := 1
  gross_profit := 0
  operating_income := 0
  net_income := 0
  eps := 1

/-- Spec-side predicate for the position of index `i` in the stable sort
keyed by `cmp`: the entries placed strictly before `(i, v)` are exactly
those strictly preceding by key, plus the key-ties of smaller original
index. -/
def keyPred (cmp : ℚ → ℚ → Bool) (v : ℚ) (i : ℕ) (p : ℕ × ℚ) : Bool :=
  (cmp p.2 v && !cmp v p.2) || (cmp p.2 v && cmp v p.2 && decide (p.1 < i))

/-- Company "A" with EPS 10 (spec example input). -/
def companyA : FinancialSnapshot :=
  { baseSnap with
      company_name := "A"
      eps := 10 }

/-- Company "B" with EPS 30 (spec example input). -/
def companyB : FinancialSnapshot :=
  { baseSnap with
      company_name := "B"
      eps := 30 }

/-- Company "C" with EPS 20 (spec example input). -/
def companyC : FinancialSnapshot :=
  { baseSnap with
      company_name := "C"
      eps := 20 }

/-- Concrete snapshot for the C6 example: operating income `125000` at the
default 20% tax rate gives NOPAT `100000`; equity `400000` + liabilities
`600000` give invested capital `1000000`. -/
def roicSnap : FinancialSnapshot :=
  { baseSnap with
      operating_income := 125000
      equity := 400000
      total_liabilities := 600000 }

/-- Target snapshot with quality composite `100` (operating margin 100, ROE
0, debt ratio 0). -/
def qTarget : FinancialSnapshot :=
  { baseSnap with operating_income := 1 }

/-- Peer snapshot with `eps = 0` (excluded by the Value-factor filter). -/
def pbSnap : FinancialSnapshot := { baseSnap with eps := 0 }

/-- Peer snapshot with `eps = -1` (excluded by the Value-factor filter). -/
def pcSnap : FinancialSnapshot := { baseSnap with eps := -1 }

/-! ## Claim theorems -/

/-- Claim C1: for every `ManagementScore` and `EarningsQualityScore` whose
four component sub-scores lie in `[0,100]`, the derived `total` equals the
unweighted arithmetic mean `(c1+c2+c3+c4)/4` of the components (the `0.25`
weights are hard-coded, and `total` is a computed field, recomputed from the
components on every read). -/
theorem total_is_unweighted_mean (m : ManagementScore) (e : EarningsQualityScore)
    (hm : 0 ≤ m.tenure_stability ∧ m.tenure_stability ≤ 100 ∧
      0 ≤ m.board_independence ∧ m.board_independence ≤ 100 ∧
      0 ≤ m.insider_alignment ∧ m.insider_alignment ≤ 100 ∧
      0 ≤ m.governance_red_flags ∧ m.governance_red_flags ≤ 100)
    (he : 0 ≤ e.accrual_quality ∧ e.accrual_quality ≤ 100 ∧
      0 ≤ e.working_capital_behavior ∧ e.working_capital_behavior ≤ 100 ∧
      0 ≤ e.one_off_dependency ∧ e.one_off_dependency ≤ 100 ∧
      0 ≤ e.earnings_stability ∧ e.earnings_stability ≤ 100) :
    m.total = (m.tenure_stability + m.board_independence +
      m.insider_alignment + m.governance_red_flags) / 4 ∧
    e.total = (e.accrual_quality + e.working_capital_behavior +
      e.one_off_dependency + e.earnings_stability) / 4 := by
  constructor
  · unfold ManagementScore.total
    norm_num
    ring
  · unfold EarningsQualityScore.total
    norm_num
    ring

/-- Witness for C1, on the component values of the repository's own unit
tests (`tests/test_models.py`): `(80,70,60,90) ↦ 75` and
`(75,80,70,85) ↦ 77.5`. -/
theorem total_is_unweighted_mean_witness :
    (⟨80, 70, 60, 90⟩ : ManagementScore).total = (80 + 70 + 60 + 90) / 4 ∧
    (⟨75, 80, 70, 85⟩ : EarningsQualityScore).total = (75 + 80 + 70 + 85) / 4 :=
  total_is_unweighted_mean ⟨80, 70, 60, 90⟩ ⟨75, 80, 70, 85⟩
    (by norm_num) (by norm_num)

/-- Counterexample to claim C9: a snapshot whose `current_assets` is present
and equal to `0` (with `current_liabilities = 5 ≠ 0`) yields
`current_ratio = None`, because Python's `and` treats `0.0` as falsy; the
claim predicted a numeric ratio in this case. -/
theorem current_ratio_zero_assets_counterexample :
    ({ baseSnap with current_assets := some 0, current_liabilities := some 5 }
        : FinancialSnapshot).current_ratio = none ∧
    ({ baseSnap with current_assets := some 0, current_liabilities := some 5 }
        : FinancialSnapshot).current_assets = some 0 ∧
    ({ baseSnap with current_assets := some 0, current_liabilities := some 5 }
        : FinancialSnapshot).current_liabilities = some 5 := by
  refine ⟨?_, rfl, rfl⟩
  simp [FinancialSnapshot.current_ratio]

/-- Claim C9 (amended): `current_ratio` is `None` exactly when the current
assets are absent *or zero*, or the current liabilities are absent or zero
(Python truthiness makes a present `0.0` behave like `None`); in every other
case it returns `current_assets / current_liabilities`. -/
theorem current_ratio_spec (s : FinancialSnapshot) :
    (s.current_ratio = none ↔
      (s.current_assets = none ∨ s.current_assets = some 0) ∨
      (s.current_liabilities = none ∨ s.current_liabilities = some 0)) ∧
    (∀ ca cl : ℚ, s.current_assets = some ca → s.current_liabilities = some cl →
      ca ≠ 0 → cl ≠ 0 → s.current_ratio = some (ca / cl)) := by
  constructor
  · unfold FinancialSnapshot.current_ratio
    rcases hca : s.current_assets with _ | ca <;>
      rcases hcl : s.current_liabilities with _ | cl <;> simp
    by_cases h0 : ca = 0
    · simp [h0]
    · by_cases h1 : cl = 0 <;> simp [h0, h1]
  · intro ca cl hca hcl h0 h1
    unfold FinancialSnapshot.current_ratio
    rw [hca, hcl]
    simp [h0, h1]

/-- Witness for C9 (amended): current assets `10`, current liabilities `4`
give ratio `5/2`; and the `None` cases at a missing-assets snapshot. -/
theorem current_ratio_spec_witness :
    ({ baseSnap with current_assets := some 10, current_liabilities := some 4 }
        : FinancialSnapshot).current_ratio = some (10 / 4) ∧
    (({ baseSnap with current_assets := none } : FinancialSnapshot).current_ratio
        = none ↔ True) := by
  constructor
  · exact (current_ratio_spec _).2 10 4 rfl rfl (by norm_num) (by norm_num)
  · simp only [iff_true]
    exact ((current_ratio_spec
      ({ baseSnap with current_assets := none } : FinancialSnapshot)).1).mpr
      (Or.inl (Or.inl rfl))

/-- Claim C3: for every value sequence with at least 2 elements, the trend
direction is computed from only the last `min(3, n)` values: `"improving"`
exactly when that tail is strictly increasing, `"declining"` exactly when it
is strictly decreasing, `"stable"` otherwise. -/
theorem trend_direction_spec (t : TrendMetric) (h : 2 ≤ t.values.length) :
    (t.trend_direction = "improving" ↔
      (t.values.drop (t.values.length - min 3 t.values.length)).Pairwise (· < ·)) ∧
    (t.trend_direction = "declining" ↔
      (t.values.drop (t.values.length - min 3 t.values.length)).Pairwise (· > ·)) ∧
    (t.trend_direction = "stable" ↔
      ¬ (t.values.drop (t.values.length - min 3 t.values.length)).Pairwise (· < ·) ∧
      ¬ (t.values.drop (t.values.length - min 3 t.values.length)).Pairwise (· > ·)) := by
  have hrecent :
      (if 3 ≤ t.values.length then t.values.drop (t.values.length - 3)
        else t.values) =
      t.values.drop (t.values.length - min 3 t.values.length) := by
    by_cases h3 : 3 ≤ t.values.length
    · rw [if_pos h3, Nat.min_eq_left h3]
    · rw [if_neg h3, Nat.min_eq_right (Nat.le_of_not_le h3), Nat.sub_self,
        List.drop_zero]
  unfold TrendMetric.trend_direction
  rw [if_neg (by omega), hrecent]
  simp only [List.chain'_iff_pairwise (R := (· < ·)),
    List.chain'_iff_pairwise (R := (· > ·))]
  by_cases hinc : (t.values.drop (t.values.length - min 3 t.values.length)).Pairwise (· < ·) <;>
    by_cases hdec : (t.values.drop (t.values.length - min 3 t.values.length)).Pairwise (· > ·) <;>
    simp [hinc, hdec]
  · -- a tail of length ≥ 2 cannot be strictly increasing and decreasing at once
    exfalso
    rw [List.pairwise_iff_getElem] at hinc hdec
    have hlen : 2 ≤ (t.values.drop (t.values.length - min 3 t.values.length)).length := by
      simp only [List.length_drop]
      omega
    have h1 := hinc 0 1 (by omega) (by omega) (by omega)
    have h2 := hdec 0 1 (by omega) (by omega) (by omega)
    exact absurd h1 (not_lt_of_gt h2)

/-- Witness for C3, on the spec's three concrete sequences:
`[10,20,30] ⇒ "improving"`, `[30,20,10] ⇒ "declining"`,
`[10,20,15] ⇒ "stable"`. -/
theorem trend_direction_spec_witness :
    (⟨"m", [], [10, 20, 30]⟩ : TrendMetric).trend_direction = "improving" ∧
    (⟨"m", [], [30, 20, 10]⟩ : TrendMetric).trend_direction = "declining" ∧
    (⟨"m", [], [10, 20, 15]⟩ : TrendMetric).trend_direction = "stable" :=
  ⟨(trend_direction_spec ⟨"m", [], [10, 20, 30]⟩ (by norm_num)).1.mpr (by decide),
   (trend_direction_spec ⟨"m", [], [30, 20, 10]⟩ (by norm_num)).2.1.mpr (by decide),
   (trend_direction_spec ⟨"m", [], [10, 20, 15]⟩ (by norm_num)).2.2.mpr
     ⟨by decide, by decide⟩⟩

/-- Claim C7: `yoy_change` is `None` below 4 observations; with ≥ 4 it is
the standard percentage change of the latest value (`values[-1]`, i.e.
`reverse[0]`) against the reference value `values[-5]` (`reverse[4]`) when a
5th-from-last tick exists, else `values[-4]` (`reverse[3]`); a reference of
`0` yields `None`. -/
theorem yoy_change_spec (t : TrendMetric) :
    (t.values.length < 4 → t.yoy_change = none) ∧
    (4 ≤ t.values.length → ∀ ref : ℚ,
      ref = (if 5 ≤ t.values.length then t.values.reverse.getD 4 0
             else t.values.reverse.getD 3 0) →
      (ref = 0 → t.yoy_change = none) ∧
      (ref ≠ 0 →
        t.yoy_change = some ((t.values.reverse.getD 0 0 - ref) / ref * 100))) := by
  constructor
  · intro hlt
    unfold TrendMetric.yoy_change
    rw [if_neg (by omega)]
  · intro h4 ref href
    have hrev : ∀ k : ℕ, k < t.values.length →
        t.values.reverse.getD k 0 = t.values.getD (t.values.length - 1 - k) 0 := by
      intro k hk
      rw [List.getD_eq_getElem?_getD, List.getD_eq_getElem?_getD,
        List.getElem?_reverse hk]
    have hcur : t.values.reverse.getD 0 0 = t.values.getD (t.values.length - 1) 0 := by
      rw [hrev 0 (by omega),
        show t.values.length - 1 - 0 = t.values.length - 1 from by omega]
    have hrefeq : ref = (if 5 ≤ t.values.length
        then t.values.getD (t.values.length - 5) 0
        else t.values.getD (t.values.length - 4) 0) := by
      rw [href]
      by_cases h5 : 5 ≤ t.values.length
      · rw [if_pos h5, if_pos h5, hrev 4 (by omega),
          show t.values.length - 1 - 4 = t.values.length - 5 from by omega]
      · rw [if_neg h5, if_neg h5, hrev 3 (by omega),
          show t.values.length - 1 - 3 = t.values.length - 4 from by omega]
    unfold TrendMetric.yoy_change
    rw [if_pos h4]
    constructor
    · intro h0
      rw [← hrefeq, if_neg (by simp [h0])]
    · intro h0
      rw [← hrefeq, if_pos h0, hcur]

/-- Witness for C7: `[1,2,3,4,8]` has 5 observations, so the reference is
`values[-5] = 1` and the YoY change is `(8 - 1)/1 × 100 = 700`; `[1,2,3]`
has fewer than 4 observations, so `None`. -/
theorem yoy_change_spec_witness :
    (⟨"m", [], [1, 2, 3, 4, 8]⟩ : TrendMetric).yoy_change = some ((8 - 1) / 1 * 100) ∧
    (⟨"m", [], [1, 2, 3]⟩ : TrendMetric).yoy_change = none :=
  ⟨by
    have h := ((yoy_change_spec ⟨"m", [], [1, 2, 3, 4, 8]⟩).2 (by norm_num)
      1 (by norm_num)).2 (by norm_num)
    simpa using h,
   (yoy_change_spec ⟨"m", [], [1, 2, 3]⟩).1 (by norm_num)⟩

/-- Claim C10: the early-warning aggregator returns `"none"` exactly on the
empty signal list; a non-empty list none of whose severities is
`"critical"`, `"high"` or `"medium"` (e.g. all-`"low"` signals, which
`EarlyWarningSignal` permits) falls through to overall `"low"`, never
`"none"`. -/
theorem warning_level_none_iff_empty (signals : List EarlyWarningSignal) :
    (determine_warning_level signals = "none" ↔ signals = []) ∧
    (signals ≠ [] →
      (∀ s ∈ signals, s.severity ≠ "critical" ∧ s.severity ≠ "high" ∧
        s.severity ≠ "medium") →
      determine_warning_level signals = "low") := by
  by_cases hemp : signals = []
  · subst hemp
    simp [determine_warning_level]
  · have hne : signals.isEmpty = false := List.isEmpty_eq_false.mpr hemp
    constructor
    · unfold determine_warning_level
      rw [if_neg (by simp [hne])]
      simp only []
      split_ifs <;> simp [hemp]
    · intro _ hall
      have hc : signals.countP (fun s => s.severity == "critical") = 0 :=
        List.countP_eq_zero.mpr fun a ha => by simp [(hall a ha).1]
      have hh : signals.countP (fun s => s.severity == "high") = 0 :=
        List.countP_eq_zero.mpr fun a ha => by simp [(hall a ha).2.1]
      have hm : signals.countP (fun s => s.severity == "medium") = 0 :=
        List.countP_eq_zero.mpr fun a ha => by simp [(hall a ha).2.2]
      unfold determine_warning_level
      rw [if_neg (by simp [hne])]
      simp only []
      simp only [hc, hh, hm]
      norm_num

/-- Witness for C10: a single `"low"`-severity signal aggregates to overall
`"low"` (not `"none"`), and the empty list aggregates to `"none"`. -/
theorem warning_level_none_iff_empty_witness :
    determine_warning_level [⟨"Minor", "low", 0, 0, ""⟩] = "low" ∧
    determine_warning_level [] = "none" :=
  ⟨(warning_level_none_iff_empty [⟨"Minor", "low", 0, 0, ""⟩]).2
      (by simp) (by simp),
   (warning_level_none_iff_empty []).1.mpr rfl⟩

/-- Claim C2: when every triggered severity is drawn from
`{medium, high, critical}` (the only severities the rule battery emits), the
aggregation is: any critical ⇒ `"critical"`; else ≥ 1 high ⇒ `"high"`
(the `≥ 2` and `≥ 1` branches collapse); else ≥ 3 medium ⇒ `"medium"`; else
≥ 1 medium ⇒ `"low"`; else (empty) ⇒ `"none"`.  Moreover the reduction is
monotonic in criticals: a signal set containing any critical signal always
aggregates to `"critical"`. -/
theorem warning_level_aggregation (signals : List EarlyWarningSignal)
    (hsev : ∀ s ∈ signals, s.severity = "medium" ∨ s.severity = "high" ∨
      s.severity = "critical") :
    determine_warning_level signals =
      (if ∃ s ∈ signals, s.severity = "critical" then "critical"
       else if ∃ s ∈ signals, s.severity = "high" then "high"
       else if 3 ≤ signals.countP (fun s => s.severity == "medium") then "medium"
       else if 1 ≤ signals.countP (fun s => s.severity == "medium") then "low"
       else "none") ∧
    (∀ (signals' : List EarlyWarningSignal) (sig : EarlyWarningSignal),
      sig ∈ signals' → sig.severity = "critical" →
      determine_warning_level signals' = "critical") := by
  constructor
  · by_cases hemp : signals = []
    · subst hemp
      simp [determine_warning_level]
    · have hne : signals.isEmpty = false := List.isEmpty_eq_false.mpr hemp
      have hcrit : (∃ s ∈ signals, s.severity = "critical") ↔
          0 < signals.countP (fun s => s.severity == "critical") := by
        rw [List.countP_pos_iff]
        simp
      have hhigh : (∃ s ∈ signals, s.severity = "high") ↔
          0 < signals.countP (fun s => s.severity == "high") := by
        rw [List.countP_pos_iff]
        simp
      unfold determine_warning_level
      rw [if_neg (by simp [hne])]
      simp only []
      simp only [hcrit, hhigh]
      split_ifs <;> first
        | rfl
        | omega
        | · -- the all-counts-zero fall-through is unreachable for a
            -- non-empty list over {medium, high, critical}
            exfalso
            obtain ⟨s, hs⟩ := List.exists_mem_of_ne_nil signals hemp
            rcases hsev s hs with h | h | h
            · have : 0 < signals.countP (fun s => s.severity == "medium") :=
                List.countP_pos_iff.mpr ⟨s, hs, by simp [h]⟩
              omega
            · have : 0 < signals.countP (fun s => s.severity == "high") :=
                List.countP_pos_iff.mpr ⟨s, hs, by simp [h]⟩
              omega
            · have : 0 < signals.countP (fun s => s.severity == "critical") :=
                List.countP_pos_iff.mpr ⟨s, hs, by simp [h]⟩
              omega
  · intro signals' sig hmem hcritical
    have hne : signals'.isEmpty = false :=
      List.isEmpty_eq_false.mpr (List.ne_nil_of_mem hmem)
    have hpos : 0 < signals'.countP (fun s => s.severity == "critical") :=
      List.countP_pos_iff.mpr ⟨sig, hmem, by simp [hcritical]⟩
    unfold determine_warning_level
    rw [if_neg (by simp [hne])]
    simp only []
    rw [if_pos hpos]

/-- Witness for C2: one high-severity signal aggregates to `"high"`, and
appending a critical signal to it aggregates to `"critical"`. -/
theorem warning_level_aggregation_witness :
    determine_warning_level [⟨"Margin Compression", "high", 0, 0, ""⟩] = "high" ∧
    determine_warning_level [⟨"Margin Compression", "high", 0, 0, ""⟩,
      ⟨"High Leverage", "critical", 85, 70, ""⟩] = "critical" := by
  have h := warning_level_aggregation
    [⟨"Margin Compression", "high", 0, 0, ""⟩] (by simp)
  refine ⟨?_, ?_⟩
  · rw [h.1]
    decide
  · exact h.2 _ ⟨"High Leverage", "critical", 85, 70, ""⟩ (by simp) rfl

/-- Claim C6: for every snapshot and tax rate, `analyze` returns an analysis
whose NOPAT is operating income × (1 − tax), whose invested capital is
equity + total liabilities, whose ROIC is NOPAT / invested capital × 100
with `0` substituted when invested capital is zero (each stored rounded to
two decimals, as in the source), and whose derived `value_creation_gap` is
`roic − wacc` with `is_value_creating` true iff the gap is strictly
positive; concretely, NOPAT 100000 on invested capital 1000000 gives ROIC
10.0%. -/
theorem roic_wacc_analyze_spec :
    (∀ (s : FinancialSnapshot) (market_beta cost_of_debt : Option ℚ) (t : ℚ),
      ∃ a : ROICWACCAnalysis,
        analyze (some s) market_beta cost_of_debt (some t) = some a ∧
        a.nopat = round2q (s.operating_income * (1 - t)) ∧
        a.invested_capital = round2q (s.equity + s.total_liabilities) ∧
        a.roic = round2q (if s.equity + s.total_liabilities = 0 then 0
          else s.operating_income * (1 - t) / (s.equity + s.total_liabilities) * 100) ∧
        a.value_creation_gap = a.roic - a.wacc ∧
        (a.is_value_creating = true ↔ a.wacc < a.roic) ∧
        (a.is_value_creating = true ↔ 0 < a.value_creation_gap)) ∧
    (∃ a : ROICWACCAnalysis,
      analyze (some roicSnap) none none none = some a ∧
      a.nopat = 100000 ∧ a.invested_capital = 1000000 ∧ a.roic = 10) := by
  constructor
  · intro s market_beta cost_of_debt t
    refine ⟨_, rfl, ?_, rfl, ?_, rfl, ?_, ?_⟩
    · simp [calculate_nopat]
    · unfold safe_divide calculate_nopat calculate_invested_capital
      by_cases h : s.equity + s.total_liabilities = 0 <;> simp [h, mul_comm]
    · simp [ROICWACCAnalysis.is_value_creating, decide_eq_true_iff]
    · simp [ROICWACCAnalysis.is_value_creating, ROICWACCAnalysis.value_creation_gap,
        decide_eq_true_iff, sub_pos]
  · refine ⟨_, rfl, ?_, ?_, ?_⟩ <;>
      norm_num [analyze, roicSnap, baseSnap, calculate_nopat,
        calculate_invested_capital, safe_divide, default_tax_rate, round2q,
        round_eq]

/-- The sample mean of a singleton is the element itself. -/
theorem pyMean_singleton (a : ℚ) : pyMean [a] = a := by
  simp [pyMean]

/-- Two identical observations have sample variance `0`. -/
theorem sampleVar_pair (a : ℚ) : sampleVar [a, a] = 0 := by
  simp [sampleVar, pyMean]

/-- Two identical observations have sample standard deviation `0`. -/
theorem stdev_pair (a : ℚ) : stdev [a, a] = 0 := by
  rw [stdev, sampleVar_pair]
  simp

/-- Counterexample to claim C4: two identical peers give a peer standard
deviation of `0`, and then the quality-factor z-score is `0.0` (the
`calculate_z_score` zero-stdev guard), *not* the claimed
`(target_composite − peer_mean) / 1.0`, which here is `100`. -/
theorem quality_factor_zero_stdev_counterexample :
    calculate_quality_factor qTarget [baseSnap, baseSnap] = 0 ∧
    ((quality_score qTarget : ℝ) -
      (pyMean [quality_score baseSnap, quality_score baseSnap] : ℝ)) / 1 = 100 := by
  have hbase : quality_score baseSnap = 0 := by
    norm_num [quality_score, baseSnap, FinancialSnapshot.roe,
      FinancialSnapshot.operating_margin, FinancialSnapshot.debt_ratio]
  have htgt : quality_score qTarget = 100 := by
    norm_num [quality_score, qTarget, baseSnap, FinancialSnapshot.roe,
      FinancialSnapshot.operating_margin, FinancialSnapshot.debt_ratio]
  constructor
  · simp only [calculate_quality_factor, List.map_cons, List.map_nil, hbase]
    rw [if_pos (by norm_num : ([(0 : ℚ), 0] : List ℚ).length > 1), stdev_pair]
    simp [calculate_z_score]
  · rw [htgt, hbase]
    norm_num [pyMean]

/-- Claim C4 (amended): neither degenerate case divides by zero, but they
differ: a *single-element* peer set substitutes a standard deviation of
`1.0`, so the quality z-score degenerates to
`(target_composite − peer_mean) / 1.0`; a zero standard deviation (several
identical peers) instead makes `calculate_z_score` return `0.0` directly. -/
theorem z_score_degenerate_spec :
    (∀ value mean : ℝ, calculate_z_score value mean 0 = 0) ∧
    (∀ target peer : FinancialSnapshot,
      calculate_quality_factor target [peer] =
        ((quality_score target : ℝ) - (quality_score peer : ℝ)) / 1) := by
  constructor
  · intro value mean
    simp [calculate_z_score]
  · intro target peer
    simp only [calculate_quality_factor, List.map_cons, List.map_nil,
      pyMean_singleton]
    rw [if_neg (by norm_num : ¬(([quality_score peer] : List ℚ).length > 1))]
    rw [calculate_z_score, if_neg one_ne_zero]

/-- Counterexample to claim C5: three peers load (passing the pre-filter
`len(peers) < 3` check) but only one has positive EPS, so fewer than 3
usable peer values remain after filtering — yet `calculate_exposures` still
returns a `FactorExposures` result instead of failing. -/
theorem value_factor_insufficient_peers_counterexample :
    (calculate_exposures (some baseSnap) [baseSnap, pbSnap, pcSnap]).isSome = true ∧
    ((([baseSnap, pbSnap, pcSnap].map FinancialSnapshot.eps).filter
      (fun e => 0 < e)).length = 1) := by
  constructor
  · rw [calculate_exposures]
    rw [if_neg (by norm_num)]
    rfl
  · norm_num [baseSnap, pbSnap, pcSnap, List.filter]

/-- Claim C5 (amended): the `< 3` minimum applies to the *loaded* peer
snapshots, before any per-factor filtering; whenever the target exists and
at least 3 peer snapshots load, `calculate_exposures` returns a result.
When the Value filter leaves no positive-EPS peer the factor
short-circuits to `0.0`, and when it leaves exactly one the standard
deviation is substituted with `1.0`, giving `(target_eps − peer_eps)/1` —
a degraded estimate, not a request failure. -/
theorem calculate_exposures_min_peers_spec (target : FinancialSnapshot)
    (peers : List FinancialSnapshot) (h3 : 3 ≤ peers.length) :
    (calculate_exposures (some target) peers).isSome = true ∧
    ((peers.map (·.eps)).filter (fun e => 0 < e) = [] →
      calculate_value_factor target peers = 0) ∧
    (∀ e : ℚ, (peers.map (·.eps)).filter (fun e => 0 < e) = [e] →
      calculate_value_factor target peers = ((target.eps : ℝ) - (e : ℝ)) / 1) := by
  refine ⟨?_, ?_, ?_⟩
  · rw [calculate_exposures, if_neg (by omega)]
    rfl
  · intro hnil
    rw [calculate_value_factor]
    simp [hnil]
  · intro e he
    rw [calculate_value_factor]
    simp only [he]
    rw [if_neg (by simp), pyMean_singleton]
    rw [if_neg (by norm_num : ¬(([e] : List ℚ).length > 1))]
    rw [calculate_z_score, if_neg one_ne_zero]

/-- Witness for C5 (amended), at a target with three loaded peers of which
exactly one has positive EPS: a result is returned, and the Value factor is
the degraded `(1 − 1)/1`. -/
theorem calculate_exposures_min_peers_spec_witness :
    (calculate_exposures (some qTarget) [baseSnap, pbSnap, pcSnap]).isSome = true ∧
    calculate_value_factor qTarget [baseSnap, pbSnap, pcSnap] =
      (((1 : ℚ) : ℝ) - ((1 : ℚ) : ℝ)) / 1 := by
  have h := calculate_exposures_min_peers_spec qTarget [baseSnap, pbSnap, pcSnap]
    (by norm_num)
  refine ⟨h.1, ?_⟩
  have hfilter : ([baseSnap, pbSnap, pcSnap].map (·.eps)).filter
      (fun e => (0 : ℚ) < e) = [1] := by
    norm_num [baseSnap, pbSnap, pcSnap, List.filter]
  have := h.2.2 1 hfilter
  simpa [qTarget, baseSnap] using this

/-! ## Stable-ranking machinery for the peer comparison -/

/-- `scatter_ranks` preserves the length of the ranking array. -/
theorem scatter_ranks_length (l : List (ℕ × ℚ)) (rank : ℕ) (r : List ℕ) :
    (scatter_ranks l rank r).length = r.length := by
  induction l generalizing rank r with
  | nil => rfl
  | cons p rest ih => rw [scatter_ranks, ih, List.length_set]

/-- Positions whose index never occurs in the sorted list are untouched. -/
theorem scatter_ranks_getElem?_not_mem (l : List (ℕ × ℚ)) (rank : ℕ)
    (r : List ℕ) (i : ℕ) (hi : i ∉ l.map Prod.fst) :
    (scatter_ranks l rank r)[i]? = r[i]? := by
  induction l generalizing rank r with
  | nil => rfl
  | cons p rest ih =>
    simp only [List.map_cons, List.mem_cons] at hi
    push_neg at hi
    rw [scatter_ranks, ih _ _ hi.2, List.getElem?_set_ne (Ne.symm hi.1)]

/-- The rank written at index `idx` is one plus the number of entries placed
before `(idx, v)` in the sorted list (when `idx` occurs exactly once). -/
theorem scatter_ranks_getElem?_split (l₁ : List (ℕ × ℚ)) (idx : ℕ) (v : ℚ)
    (l₂ : List (ℕ × ℚ)) (rank : ℕ) (r : List ℕ)
    (h₁ : idx ∉ l₁.map Prod.fst) (h₂ : idx ∉ l₂.map Prod.fst)
    (hlen : idx < r.length) :
    (scatter_ranks (l₁ ++ (idx, v) :: l₂) rank r)[idx]? =
      some (rank + l₁.length) := by
  induction l₁ generalizing rank r with
  | nil =>
    rw [List.nil_append, scatter_ranks,
      scatter_ranks_getElem?_not_mem _ _ _ _ h₂,
      List.getElem?_set_self (by simpa using hlen)]
    simp
  | cons q l₁ ih =>
    simp only [List.map_cons, List.mem_cons] at h₁
    push_neg at h₁
    rw [List.cons_append, scatter_ranks,
      ih (rank + 1) (r.set q.1 rank) h₁.2 (by simpa using hlen)]
    congr 1
    simp only [List.length_cons]
    omega

/-- Splitting a list around a distinguished element is unique when that
element occurs in neither prefix. -/
theorem append_cons_eq_of_not_mem {α : Type} {a : α} {s u t w : List α}
    (h : s ++ a :: t = u ++ a :: w) (hs : a ∉ s) (hu : a ∉ u) :
    s = u ∧ t = w := by
  induction s generalizing u with
  | nil =>
    cases u with
    | nil => simpa using h
    | cons c u =>
      simp only [List.nil_append, List.cons_append, List.cons.injEq] at h
      exact absurd (h.1 ▸ List.mem_cons_self a u) hu
  | cons d s ih =>
    cases u with
    | nil =>
      simp only [List.cons_append, List.nil_append, List.cons.injEq] at h
      exact absurd (h.1 ▸ List.mem_cons_self d s) (h.1 ▸ hs)
    | cons c u =>
      simp only [List.cons_append, List.cons.injEq] at h
      obtain ⟨rfl, h2⟩ := h
      have hs' : a ∉ s := fun hm => hs (List.mem_cons_of_mem _ hm)
      have hu' : a ∉ u := fun hm => hu (List.mem_cons_of_mem _ hm)
      obtain ⟨h3, h4⟩ := ih h2 hs' hu'
      exact ⟨by rw [h3], h4⟩

/-- Two positions of a list, in order, form a sublist. -/
theorem pair_getElem_sublist {α : Type} (l : List α) (i j : ℕ)
    (hi : i < l.length) (hj : j < l.length) (hij : i < j) :
    List.Sublist [l[i], l[j]] l := by
  have h2 : List.Sublist (l[j] :: List.drop (j + 1) l) (List.drop (i + 1) l) := by
    rw [← List.drop_eq_getElem_cons hj]
    exact List.drop_sublist_drop_left l (by omega)
  have h3 : List.Sublist [l[j]] (List.drop (i + 1) l) :=
    List.Sublist.trans
      (List.singleton_sublist.mpr (List.mem_cons_self _ _)) h2
  have h4 : List.Sublist [l[i], l[j]] (l[i] :: List.drop (i + 1) l) := h3.cons₂ _
  rw [← List.drop_eq_getElem_cons hi] at h4
  exact h4.trans (List.drop_sublist i l)

/-- In a duplicate-free list split as `s ++ a :: t`, any pair-sublist
`[a, b]` forces `b` to lie in the suffix `t`. -/
theorem mem_right_of_pair_sublist {α : Type} {a b : α} {s t : List α}
    (h : List.Sublist [a, b] (s ++ a :: t)) (hnd : (s ++ a :: t).Nodup) :
    b ∈ t := by
  rw [List.cons_sublist_iff] at h
  obtain ⟨r₁, r₂, hsplit, har₁, hbr₂⟩ := h
  rw [List.singleton_sublist] at hbr₂
  obtain ⟨u, w, rfl⟩ := List.append_of_mem har₁
  have hs2 : s ++ a :: t = u ++ a :: (w ++ r₂) := by
    rw [hsplit]
    simp [List.append_assoc]
  have hnd2 := hnd
  rw [hs2] at hnd2
  have has : a ∉ s := fun hm =>
    (List.disjoint_of_nodup_append hnd) hm (List.mem_cons_self _ _)
  have hau : a ∉ u := fun hm =>
    (List.disjoint_of_nodup_append hnd2) hm (List.mem_cons_self _ _)
  obtain ⟨-, ht⟩ := append_cons_eq_of_not_mem hs2 has hau
  rw [ht]
  exact List.mem_append_right _ hbr₂

/-- In a duplicate-free list split as `s ++ b :: t`, any pair-sublist
`[a, b]` forces `a` to lie in the prefix `s`. -/
theorem mem_left_of_pair_sublist {α : Type} {a b : α} {s t : List α}
    (h : List.Sublist [a, b] (s ++ b :: t)) (hnd : (s ++ b :: t).Nodup) :
    a ∈ s := by
  rw [List.cons_sublist_iff] at h
  obtain ⟨r₁, r₂, hsplit, har₁, hbr₂⟩ := h
  rw [List.singleton_sublist] at hbr₂
  obtain ⟨p, q, rfl⟩ := List.append_of_mem hbr₂
  have hs2 : s ++ b :: t = (r₁ ++ p) ++ b :: q := by
    rw [hsplit, List.append_assoc]
  have hnd2 := hnd
  rw [hs2] at hnd2
  have hbs : b ∉ s := fun hm =>
    (List.disjoint_of_nodup_append hnd) hm (List.mem_cons_self _ _)
  have hbrp : b ∉ r₁ ++ p := fun hm =>
    (List.disjoint_of_nodup_append hnd2) hm (List.mem_cons_self _ _)
  obtain ⟨hseq, -⟩ := append_cons_eq_of_not_mem hs2 hbs hbrp
  rw [hseq]
  exact List.mem_append_left _ har₁

/-- Position of `(i, values[i])` inside the stable merge sort of the
enumerated values under a total, transitive key comparison `cmp`: the prefix
before it consists exactly of the entries matched by `keyPred` — those
strictly preceding by key, plus the key-ties of smaller original index. -/
theorem mergeSort_enum_split (cmp : ℚ → ℚ → Bool)
    (htrans : ∀ a b c, cmp a b = true → cmp b c = true → cmp a c = true)
    (htotal : ∀ a b, (cmp a b || cmp b a) = true)
    (values : List ℚ) (i : ℕ) (hi : i < values.length) :
    ∃ l₁ l₂ : List (ℕ × ℚ),
      values.enum.mergeSort (fun x y => cmp x.2 y.2) =
        l₁ ++ (i, values[i]) :: l₂ ∧
      i ∉ l₁.map Prod.fst ∧ i ∉ l₂.map Prod.fst ∧
      l₁.length = values.enum.countP (keyPred cmp (values[i]) i) := by
  have hletrans : ∀ a b c : ℕ × ℚ, cmp a.2 b.2 → cmp b.2 c.2 → cmp a.2 c.2 :=
    fun a b c hab hbc => htrans _ _ _ hab hbc
  have hletotal : ∀ a b : ℕ × ℚ, (cmp a.2 b.2 || cmp b.2 a.2) = true :=
    fun a b => htotal _ _
  have he_enum : (i, values[i]) ∈ values.enum := by
    rw [List.mem_enum_iff_getElem?]
    simp [List.getElem?_eq_getElem hi]
  have hmemL : (i, values[i]) ∈
      values.enum.mergeSort (fun x y => cmp x.2 y.2) :=
    List.mem_mergeSort.mpr he_enum
  obtain ⟨l₁, l₂, hL⟩ := List.append_of_mem hmemL
  have hperm : List.Perm (values.enum.mergeSort (fun x y => cmp x.2 y.2))
      values.enum :=
    List.mergeSort_perm _ _
  have hnodfst :
      ((values.enum.mergeSort (fun x y => cmp x.2 y.2)).map Prod.fst).Nodup := by
    have hp : List.Perm
        ((values.enum.mergeSort (fun x y => cmp x.2 y.2)).map Prod.fst)
        (values.enum.map Prod.fst) := hperm.map _
    rw [hp.nodup_iff, List.enum_map_fst]
    exact List.nodup_range _
  have hnod : (values.enum.mergeSort (fun x y => cmp x.2 y.2)).Nodup :=
    List.Nodup.of_map _ hnodfst
  have hsorted := List.sorted_mergeSort hletrans hletotal values.enum
  rw [hL] at hperm hnod hnodfst hsorted
  rw [List.map_append, List.map_cons] at hnodfst
  -- index `i` occurs in neither part
  have hi_l1 : i ∉ l₁.map Prod.fst := fun hm =>
    (List.disjoint_of_nodup_append hnodfst) hm (List.mem_cons_self _ _)
  have hi_l2 : i ∉ l₂.map Prod.fst :=
    (List.nodup_cons.mp (List.nodup_append.mp hnodfst).2.1).1
  -- every entry of the sorted list is an entry of the enumeration
  have henum_fact : ∀ x : ℕ × ℚ, x ∈ l₁ ++ (i, values[i]) :: l₂ →
      ∃ h : x.1 < values.length, values[x.1] = x.2 := by
    intro x hx
    have hxe : x ∈ values.enum := hperm.mem_iff.mp hx
    exact List.getElem?_eq_some_iff.mp (List.mem_enum_iff_getElem?.mp hxe)
  rw [List.pairwise_append] at hsorted
  obtain ⟨hp₁, hp₂, hp₁₂⟩ := hsorted
  -- the distinguished entry satisfies the predicate negatively
  have hself : cmp (values[i]) (values[i]) = true := by
    have := htotal (values[i]) (values[i])
    simpa using this
  have hprede : keyPred cmp (values[i]) i (i, values[i]) = false := by
    simp [keyPred, hself]
  have hienum : i < values.enum.length := by
    simpa [List.enum_length] using hi
  -- everything in the prefix satisfies the predicate
  have hpred₁ : ∀ x ∈ l₁, keyPred cmp (values[i]) i x = true := by
    rintro ⟨xi, xv⟩ hx
    obtain ⟨hx1, hx2⟩ := henum_fact (xi, xv) (List.mem_append_left _ hx)
    simp only at hx1 hx2
    have hlex : cmp xv (values[i]) = true :=
      hp₁₂ (xi, xv) hx _ (List.mem_cons_self _ _)
    by_cases hback : cmp (values[i]) xv = true
    · -- key tie: stability forces x to come from a smaller original index
      have hne : xi ≠ i := by
        intro hEq
        subst hEq
        rw [← hx2] at hx
        exact (List.disjoint_of_nodup_append hnod) hx
          (List.mem_cons_self _ _)
      rcases Nat.lt_or_ge xi i with hlt | hge
      · simp [keyPred, hlex, hback, hlt]
      · exfalso
        have hilt : i < xi := by omega
        have hxenum : xi < values.enum.length := by
          simpa [List.enum_length] using hx1
        have hpair : List.Sublist [(i, values[i]), (xi, xv)] values.enum := by
          have hpe := pair_getElem_sublist values.enum i xi hienum hxenum hilt
          have e1 : values.enum[i] = (i, values[i]) := by simp
          have e2 : values.enum[xi] = (xi, xv) := by
            rw [List.getElem_enum]
            simp [hx2]
          rwa [e1, e2] at hpe
        have hLp := List.pair_sublist_mergeSort hletrans hletotal hback hpair
        rw [hL] at hLp
        have hx_l2 : (xi, xv) ∈ l₂ := mem_right_of_pair_sublist hLp hnod
        exact (List.disjoint_of_nodup_append hnod) hx
          (List.mem_cons_of_mem _ hx_l2)
    · simp [keyPred, hlex, hback]
  -- nothing in the suffix satisfies the predicate
  have hpred₂ : ∀ x ∈ l₂, keyPred cmp (values[i]) i x = false := by
    rintro ⟨xi, xv⟩ hx
    obtain ⟨hx1, hx2⟩ := henum_fact (xi, xv)
      (List.mem_append_right _ (List.mem_cons_of_mem _ hx))
    simp only at hx1 hx2
    have hlex : cmp (values[i]) xv = true :=
      List.rel_of_pairwise_cons hp₂ hx
    by_cases hfwd : cmp xv (values[i]) = true
    · have hne : xi ≠ i := by
        intro hEq
        subst hEq
        rw [← hx2] at hx
        exact (List.nodup_cons.mp
          (List.nodup_append.mp hnod).2.1).1 hx
      have hnlt : ¬ xi < i := by
        intro hlt
        have hxenum : xi < values.enum.length := by
          simpa [List.enum_length] using hx1
        have hpair : List.Sublist [(xi, xv), (i, values[i])] values.enum := by
          have hpe := pair_getElem_sublist values.enum xi i hxenum hienum hlt
          have e1 : values.enum[xi] = (xi, xv) := by
            rw [List.getElem_enum]
            simp [hx2]
          have e2 : values.enum[i] = (i, values[i]) := by simp
          rwa [e1, e2] at hpe
        have hLp := List.pair_sublist_mergeSort hletrans hletotal hfwd hpair
        rw [hL] at hLp
        have hx_l1 : (xi, xv) ∈ l₁ := mem_left_of_pair_sublist hLp hnod
        exact (List.disjoint_of_nodup_append hnod) hx_l1
          (List.mem_cons_of_mem _ hx)
      simp [keyPred, hfwd, hlex, hnlt]
    · simp [keyPred, hfwd]
  -- count the prefix
  refine ⟨l₁, l₂, hL, hi_l1, hi_l2, ?_⟩
  have hcnt := hperm.countP_eq (keyPred cmp (values[i]) i)
  rw [List.countP_append, List.countP_cons] at hcnt
  have h1 : l₁.countP (keyPred cmp (values[i]) i) = l₁.length :=
    List.countP_eq_length.mpr hpred₁
  have h2 : l₂.countP (keyPred cmp (values[i]) i) = 0 :=
    List.countP_eq_zero.mpr (fun a ha => by simp [hpred₂ a ha])
  rw [h1, h2, hprede] at hcnt
  simpa using hcnt

/-- Under the descending key comparison (`reverse=True`), `keyPred` is
"strictly larger value, or equal value with smaller original index". -/
theorem keyPred_desc (v : ℚ) (i : ℕ) :
    keyPred (fun a b => decide (b ≤ a)) v i =
      fun p : ℕ × ℚ =>
        decide (v < p.2) || (decide (p.2 = v) && decide (p.1 < i)) := by
  funext p
  rcases lt_trichotomy v p.2 with h | h | h
  · simp [keyPred, le_of_lt h, h, not_le.mpr h, ne_of_gt h]
  · subst h
    simp [keyPred, lt_irrefl]
  · simp [keyPred, not_le.mpr h, not_lt.mpr (le_of_lt h), ne_of_lt h]

/-- Under the ascending key comparison, `keyPred` is "strictly smaller
value, or equal value with smaller original index". -/
theorem keyPred_asc (v : ℚ) (i : ℕ) :
    keyPred (fun a b => decide (a ≤ b)) v i =
      fun p : ℕ × ℚ =>
        decide (p.2 < v) || (decide (p.2 = v) && decide (p.1 < i)) := by
  funext p
  rcases lt_trichotomy p.2 v with h | h | h
  · simp [keyPred, le_of_lt h, h, not_le.mpr h, ne_of_lt h]
  · subst h
    simp [keyPred, lt_irrefl]
  · simp [keyPred, not_le.mpr h, not_lt.mpr (le_of_lt h), ne_of_gt h]

/-- Rank of position `i` under the descending stable sort: one plus the
number of entries with a strictly larger value or an equal value at a
smaller original index. -/
theorem ranking_desc_getElem (values : List ℚ) (i : ℕ)
    (hi : i < values.length) :
    (scatter_ranks (values.enum.mergeSort descLE) 1
      (List.replicate values.length 0))[i]? =
    some (1 + values.enum.countP (fun p =>
      decide (values[i] < p.2) || (decide (p.2 = values[i]) && decide (p.1 < i)))) := by
  have h := mergeSort_enum_split (fun a b => decide (b ≤ a))
    (fun a b c hab hbc => by
      simp only [decide_eq_true_iff] at hab hbc ⊢
      exact le_trans hbc hab)
    (fun a b => by
      rcases le_total a b with h | h <;> simp [h])
    values i hi
  obtain ⟨l₁, l₂, hL, h1, h2, hcnt⟩ := h
  rw [keyPred_desc] at hcnt
  have hsc := scatter_ranks_getElem?_split l₁ i (values[i]) l₂ 1
    (List.replicate values.length 0) h1 h2 (by simpa using hi)
  rw [← hL] at hsc
  show (scatter_ranks (values.enum.mergeSort fun x y => decide (y.2 ≤ x.2)) 1
      (List.replicate values.length 0))[i]? = _
  rw [hsc, hcnt]

/-- Rank of position `i` under the ascending stable sort. -/
theorem ranking_asc_getElem (values : List ℚ) (i : ℕ)
    (hi : i < values.length) :
    (scatter_ranks (values.enum.mergeSort ascLE) 1
      (List.replicate values.length 0))[i]? =
    some (1 + values.enum.countP (fun p =>
      decide (p.2 < values[i]) || (decide (p.2 = values[i]) && decide (p.1 < i)))) := by
  have h := mergeSort_enum_split (fun a b => decide (a ≤ b))
    (fun a b c hab hbc => by
      simp only [decide_eq_true_iff] at hab hbc ⊢
      exact le_trans hab hbc)
    (fun a b => by
      rcases le_total a b with h | h <;> simp [h])
    values i hi
  obtain ⟨l₁, l₂, hL, h1, h2, hcnt⟩ := h
  rw [keyPred_asc] at hcnt
  have hsc := scatter_ranks_getElem?_split l₁ i (values[i]) l₂ 1
    (List.replicate values.length 0) h1 h2 (by simpa using hi)
  rw [← hL] at hsc
  show (scatter_ranks (values.enum.mergeSort fun x y => decide (x.2 ≤ y.2)) 1
      (List.replicate values.length 0))[i]? = _
  rw [hsc, hcnt]

/-- The ranking array produced by `_compare_metric` has one rank slot per
company. -/
theorem compare_metric_ranking_length (metric_name : String)
    (snapshots : List FinancialSnapshot) (extractor : FinancialSnapshot → ℚ)
    (hib : Bool) :
    (compare_metric metric_name snapshots extractor hib).ranking.length =
      snapshots.length := by
  cases hib <;>
    simp [compare_metric, scatter_ranks_length]

/-- Claim C8: for every peer comparison, ranks `1..n` are assigned by the
stable sort of the values — descending when `higher_is_better`, ascending
otherwise — with ties broken by original input order (the first occurrence
wins the better, i.e. smaller, rank): the rank at position `i` is one plus
the number of positions with a strictly better value, plus the equal-valued
positions of smaller index.  `best_performer`/`worst_performer` are the
companies at the *first* index of the literal max/min of `values`,
regardless of the `higher_is_better` flag.  Concretely, values `[10,30,20]`
with `higher_is_better = True` rank as `[3,1,2]` and the best performer is
the company with value 30. -/
theorem compare_metric_spec :
    (∀ (metric_name : String) (snapshots : List FinancialSnapshot)
        (extractor : FinancialSnapshot → ℚ) (i : ℕ)
        (hi : i < (snapshots.map extractor).length),
      (compare_metric metric_name snapshots extractor true).ranking[i]? =
        some (1 + (snapshots.map extractor).enum.countP (fun p =>
          decide ((snapshots.map extractor)[i] < p.2) ||
          (decide (p.2 = (snapshots.map extractor)[i]) && decide (p.1 < i)))) ∧
      (compare_metric metric_name snapshots extractor false).ranking[i]? =
        some (1 + (snapshots.map extractor).enum.countP (fun p =>
          decide (p.2 < (snapshots.map extractor)[i]) ||
          (decide (p.2 = (snapshots.map extractor)[i]) && decide (p.1 < i))))) ∧
    (∀ (metric_name : String) (snapshots : List FinancialSnapshot)
        (extractor : FinancialSnapshot → ℚ),
      (compare_metric metric_name snapshots extractor true).best_performer =
        (compare_metric metric_name snapshots extractor false).best_performer ∧
      (compare_metric metric_name snapshots extractor true).worst_performer =
        (compare_metric metric_name snapshots extractor false).worst_performer ∧
      (snapshots.map extractor ≠ [] → ∀ hib : Bool, ∃ m : ℚ,
        (snapshots.map extractor).max? = some m ∧
        (∀ x ∈ snapshots.map extractor, x ≤ m) ∧
        (compare_metric metric_name snapshots extractor hib).best_performer =
          (snapshots.map (·.company_name)).getD
            ((snapshots.map extractor).indexOf m) "")) ∧
    ((compare_metric "EPS (NT$)" [companyA, companyB, companyC]
        (·.eps) true).ranking = [3, 1, 2] ∧
     (compare_metric "EPS (NT$)" [companyA, companyB, companyC]
        (·.eps) true).best_performer = "B") := by
  have P1 : ∀ (metric_name : String) (snapshots : List FinancialSnapshot)
      (extractor : FinancialSnapshot → ℚ) (i : ℕ)
      (hi : i < (snapshots.map extractor).length),
      (compare_metric metric_name snapshots extractor true).ranking[i]? =
        some (1 + (snapshots.map extractor).enum.countP (fun p =>
          decide ((snapshots.map extractor)[i] < p.2) ||
          (decide (p.2 = (snapshots.map extractor)[i]) && decide (p.1 < i)))) ∧
      (compare_metric metric_name snapshots extractor false).ranking[i]? =
        some (1 + (snapshots.map extractor).enum.countP (fun p =>
          decide (p.2 < (snapshots.map extractor)[i]) ||
          (decide (p.2 = (snapshots.map extractor)[i]) && decide (p.1 < i)))) := by
    intro metric_name snapshots extractor i hi
    constructor
    · simpa [compare_metric] using
        ranking_desc_getElem (snapshots.map extractor) i hi
    · simpa [compare_metric] using
        ranking_asc_getElem (snapshots.map extractor) i hi
  refine ⟨P1, ?_, ?_, ?_⟩
  · intro metric_name snapshots extractor
    refine ⟨rfl, rfl, ?_⟩
    intro hne hib
    rcases hmax : (snapshots.map extractor).max? with _ | m
    · rw [List.max?_eq_none_iff] at hmax
      exact absurd hmax hne
    · refine ⟨m, rfl, ?_, ?_⟩
      · intro x hx
        have hle := List.max?_le_iff (fun _ _ _ => max_le_iff) hmax (x := m)
        exact (hle.mp (le_refl m)) x hx
      · cases hib <;>
          simp [compare_metric, PeerComparison.best_performer, hmax]
  · -- values [10, 30, 20], higher_is_better = True ⇒ ranks [3, 1, 2]
    have hlen := compare_metric_ranking_length "EPS (NT$)"
      [companyA, companyB, companyC] (·.eps) true
    apply List.ext_getElem?
    intro n
    match n with
    | 0 =>
      rw [(P1 "EPS (NT$)" [companyA, companyB, companyC] (·.eps) 0 (by simp)).1]
      decide
    | 1 =>
      rw [(P1 "EPS (NT$)" [companyA, companyB, companyC] (·.eps) 1 (by simp)).1]
      decide
    | 2 =>
      rw [(P1 "EPS (NT$)" [companyA, companyB, companyC] (·.eps) 2 (by simp)).1]
      decide
    | n + 3 =>
      rw [List.getElem?_eq_none (by
          rw [hlen]
          simp only [List.length_cons, List.length_nil]
          omega),
        List.getElem?_eq_none (by simp)]
  · decide

/-- Witness for C8, at the concrete three-company example: with
`higher_is_better = False` the company with value 10 gets rank 1, and the
best performer under either flag is the company at the first index of the
maximum 30. -/
theorem compare_metric_spec_witness :
    (compare_metric "EPS (NT$)" [companyA, companyB, companyC]
      (·.eps) false).ranking[0]? = some 1 ∧
    ∃ m : ℚ, ([companyA, companyB, companyC].map (·.eps)).max? = some m ∧
      (∀ x ∈ [companyA, companyB, companyC].map (·.eps), x ≤ m) ∧
      (compare_metric "EPS (NT$)" [companyA, companyB, companyC]
        (·.eps) true).best_performer =
        ([companyA, companyB, companyC].map (·.company_name)).getD
          (([companyA, companyB, companyC].map (·.eps)).indexOf m) "" := by
  constructor
  · rw [(compare_metric_spec.1 "EPS (NT$)" [companyA, companyB, companyC]
      (·.eps) 0 (by simp)).2]
    decide
  · exact (compare_metric_spec.2.1 "EPS (NT$)"
      [companyA, companyB, companyC] (·.eps)).2.2 (by simp) true

end FinAgent
